import Mathlib

/-
Verification of the vidapp media capture / trim / export core against its
natural-language specification.  The TypeScript source (Vue single-file
components) is shallowly embedded: reactive refs become record fields,
event handlers become state-transition functions, JS numbers for media
times become exact rationals, and wall-clock milliseconds become integers.
External platform capabilities (codec probe, wake lock, webm duration
fixer, composition engine) are passed in as explicit function parameters.
-/

namespace VidApp

/-- Embedding of the VideoMetadata interface of VideoEditor.vue: one clip
held by the editor, with its trim range in seconds (JS numbers modelled as
rationals) and its object-URL handle. -/
structure VideoMetadata where
  name : String
  size : String
  type : String
  duration : String
  url : String
  trimStart : ℚ
  trimEnd : ℚ
  videoDuration : ℚ
  width : ℕ
  height : ℕ
deriving Repr, DecidableEq, Inhabited

/-- Embedding of the reactive state of VideoEditor.vue that the claims
touch: the clip library (videos), the current selection (videoMetadata and
videoUrl), the trim-slider state, and the export display state. -/
structure EditorState where
  videos : List VideoMetadata
  videoMetadata : Option VideoMetadata
  videoUrl : Option String
  videoDuration : ℚ
  trimStart : ℚ
  trimEnd : ℚ
  exportProgress : Option ℤ
  trimStartTime : ℤ
  trimDuration : String
deriving Repr, DecidableEq, Inhabited

/-- Embedding of handleTrimChange of VideoEditor.vue: if no video is
selected it returns unchanged, else it copies the slider values
trimStart and trimEnd onto the selected metadata object.  In JS the
selected metadata is a shared reference into the videos array, so the
entry of the array with the same object URL is updated as well. -/
def handleTrimChange (s : EditorState) : EditorState :=
  match s.videoMetadata with
  | none => s
  | some m =>
    let m' : VideoMetadata := { m with trimStart := s.trimStart, trimEnd := s.trimEnd }
    { s with
      videoMetadata := some m',
      videos := s.videos.map fun v =>
        if v.url = m.url then { v with trimStart := s.trimStart, trimEnd := s.trimEnd } else v }

/-- Embedding of selectVideo of VideoEditor.vue. -/
def selectVideo (s : EditorState) (v : VideoMetadata) : EditorState :=
  { s with
    videoUrl := some v.url,
    videoMetadata := some v,
    videoDuration := v.videoDuration,
    trimStart := v.trimStart,
    trimEnd := v.trimEnd }

/-- Embedding of deleteVideo of VideoEditor.vue: revoke the object URL of
the entry at the index (a pure-state model drops the revocation side
effect), splice it out, then re-derive the selection: if the selection was
already empty or the list became empty, clear the selection; otherwise if
no remaining entry carries the selected URL, select the entry at
min index (length - 1). -/
def deleteVideo (s : EditorState) (index : ℕ) : EditorState :=
  let videos' := s.videos.eraseIdx index
  let s1 := { s with videos := videos' }
  if s.videoUrl.isNone || videos'.isEmpty then
    { s1 with videoUrl := none, videoMetadata := none }
  else
    match s.videoMetadata with
    | some m =>
      if (videos'.find? fun v => v.url = m.url).isNone then
        let newIndex := min index (videos'.length - 1)
        selectVideo s1 (videos'.getD newIndex default)
      else s1
    | none => s1

/-- ClipAsset invariant of the spec data model, section 3. -/
def TrimInvariant (m : VideoMetadata) : Prop :=
  0 ≤ m.trimStart ∧ m.trimStart ≤ m.trimEnd ∧ m.trimEnd ≤ m.videoDuration

instance (m : VideoMetadata) : Decidable (TrimInvariant m) := by
  unfold TrimInvariant; infer_instance

/-- Concrete clip used by the C1 counterexample: a ten-second clip,
initially untrimmed. -/
def c1Clip : VideoMetadata :=
  { name := "a.webm", size := "1.00 MB", type := "video/webm", duration := "0:10",
    url := "blob:a", trimStart := 0, trimEnd := 10, videoDuration := 10,
    width := 640, height := 480 }

/-- Concrete editor state for the C1 counterexample: c1Clip is loaded and
selected, and the user has dragged the start slider to 7 and the end
slider to 3.  Both slider values lie inside the range-input bounds
[0, videoDuration], so the trim controls can deliver them. -/
def c1State : EditorState :=
  { videos := [c1Clip], videoMetadata := some c1Clip, videoUrl := some c1Clip.url,
    videoDuration := 10, trimStart := 7, trimEnd := 3,
    exportProgress := none, trimStartTime := 0, trimDuration := "" }

/-- C1 counterexample: the trim sliders each range over [0, videoDuration]
but are independent, so they can deliver start = 7 and end = 3 on a
ten-second clip; handleTrimChange applies them without validation and the
resulting selected clip violates 0 ≤ trimStart ≤ trimEnd ≤ totalDuration. -/
theorem c1_invariant_fails_on_crossed_sliders :
    (0 ≤ c1State.trimStart ∧ c1State.trimStart ≤ c1State.videoDuration) ∧
    (0 ≤ c1State.trimEnd ∧ c1State.trimEnd ≤ c1State.videoDuration) ∧
    (handleTrimChange c1State).videoMetadata
      = some { c1Clip with trimStart := 7, trimEnd := 3 } ∧
    ¬ TrimInvariant { c1Clip with trimStart := 7, trimEnd := 3 } := by
  decide

/-- C1 amended: after handleTrimChange with slider-deliverable values
(each bounded by [0, videoDuration] of the selected clip), both trim
bounds of the selected clip lie in [0, totalDuration]; the full chain
trimStart ≤ trimEnd additionally holds exactly when the delivered start
does not exceed the delivered end, since the handler applies the values
without re-validating their order. -/
theorem c1_trimChange_bounds (s : EditorState) (m : VideoMetadata)
    (hsel : s.videoMetadata = some m)
    (hdur : s.videoDuration = m.videoDuration)
    (h1 : 0 ≤ s.trimStart) (h2 : s.trimStart ≤ s.videoDuration)
    (h3 : 0 ≤ s.trimEnd) (h4 : s.trimEnd ≤ s.videoDuration) :
    ∃ m', (handleTrimChange s).videoMetadata = some m' ∧
      m'.videoDuration = m.videoDuration ∧
      (0 ≤ m'.trimStart ∧ m'.trimStart ≤ m'.videoDuration) ∧
      (0 ≤ m'.trimEnd ∧ m'.trimEnd ≤ m'.videoDuration) ∧
      (s.trimStart ≤ s.trimEnd → TrimInvariant m') := by
  refine ⟨{ m with trimStart := s.trimStart, trimEnd := s.trimEnd }, ?_, rfl, ?_, ?_, ?_⟩
  · simp [handleTrimChange, hsel]
  · exact ⟨h1, by simpa [hdur] using h2⟩
  · exact ⟨h3, by simpa [hdur] using h4⟩
  · intro hle
    exact ⟨h1, hle, by simpa [hdur] using h4⟩

/-- Witness for c1_trimChange_bounds at a concrete state: the same
ten-second clip with an ordered trim request start 2, end 6. -/
theorem c1_trimChange_bounds_witness :
    ∃ m', (handleTrimChange { c1State with trimStart := 2, trimEnd := 6 }).videoMetadata = some m' ∧
      m'.videoDuration = c1Clip.videoDuration ∧
      (0 ≤ m'.trimStart ∧ m'.trimStart ≤ m'.videoDuration) ∧
      (0 ≤ m'.trimEnd ∧ m'.trimEnd ≤ m'.videoDuration) ∧
      ((2 : ℚ) ≤ 6 → TrimInvariant m') :=
  c1_trimChange_bounds { c1State with trimStart := 2, trimEnd := 6 } c1Clip
    rfl rfl (by decide) (by decide) (by decide) (by decide)

/-- Elements remaining after erasing index i all differ, under f, from the
element that was at i, provided the f-images are pairwise distinct. -/
theorem map_nodup_eraseIdx_ne {α β : Type} (f : α → β) :
    ∀ (l : List α) (i : ℕ) (hi : i < l.length), (l.map f).Nodup →
      ∀ v ∈ l.eraseIdx i, f v ≠ f (l.get ⟨i, hi⟩)
  | [], i, hi, _, _, hv => absurd hi (by simp)
  | a :: t, 0, _, hnd, v, hv => by
    simp only [List.eraseIdx_cons_zero] at hv
    simp only [List.map_cons, List.nodup_cons] at hnd
    intro hEq
    exact hnd.1 (hEq ▸ List.mem_map_of_mem f hv)
  | a :: t, i + 1, hi, hnd, v, hv => by
    simp only [List.eraseIdx_cons_succ, List.mem_cons] at hv
    simp only [List.map_cons, List.nodup_cons] at hnd
    have hi' : i < t.length := by simpa using hi
    rcases hv with rfl | hv
    · intro hEq
      exact hnd.1 (hEq ▸ List.mem_map_of_mem f (t.get_mem i hi'))
    · exact map_nodup_eraseIdx_ne f t i hi' hnd.2 v hv

/-- The element at an index different from the erased one survives the
erasure. -/
theorem get_mem_eraseIdx_of_ne {α : Type} :
    ∀ (l : List α) (i j : ℕ) (hi : i < l.length), i ≠ j →
      l.get ⟨i, hi⟩ ∈ l.eraseIdx j
  | [], i, _, hi, _ => absurd hi (by simp)
  | a :: t, 0, 0, _, hij => absurd rfl hij
  | a :: t, i + 1, 0, hi, _ => by
    simp only [List.eraseIdx_cons_zero, List.get_cons_succ]
    exact t.get_mem i (Nat.lt_of_succ_lt_succ hi)
  | a :: t, 0, j + 1, _, _ => by simp
  | a :: t, i + 1, j + 1, hi, hij => by
    have hi' : i < t.length := by simpa using hi
    have := get_mem_eraseIdx_of_ne t i j hi' (fun h => hij (by simp [h]))
    simpa using Or.inr this

/-- C4: deleting the currently selected entry re-derives the selection per
the cascade rule: the entry now occupying the same index is selected, or
the last entry when that index is out of range, and an emptied library
clears the selection (metadata and url both null).  Object URLs are
assumed pairwise distinct, as URL.createObjectURL guarantees. -/
theorem c4_delete_selected_cascade (s : EditorState) (i : ℕ) (m : VideoMetadata)
    (hi : i < s.videos.length)
    (hnd : (s.videos.map VideoMetadata.url).Nodup)
    (hsel : s.videoMetadata = some m)
    (hurl : s.videoUrl = some m.url)
    (hget : s.videos.get ⟨i, hi⟩ = m) :
    (deleteVideo s i).videos = s.videos.eraseIdx i ∧
    (s.videos.eraseIdx i = [] →
      (deleteVideo s i).videoMetadata = none ∧ (deleteVideo s i).videoUrl = none) ∧
    (s.videos.eraseIdx i ≠ [] →
      (deleteVideo s i).videoMetadata
        = some ((s.videos.eraseIdx i).getD (min i ((s.videos.eraseIdx i).length - 1)) default) ∧
      (deleteVideo s i).videoUrl
        = some ((s.videos.eraseIdx i).getD (min i ((s.videos.eraseIdx i).length - 1)) default).url) := by
  have hfind : ((s.videos.eraseIdx i).find? fun v => v.url = m.url) = none := by
    rw [List.find?_eq_none]
    intro v hv
    simpa using hget ▸ map_nodup_eraseIdx_ne VideoMetadata.url s.videos i hi hnd v hv
  by_cases hemp : s.videos.eraseIdx i = []
  · constructor
    · simp [deleteVideo, hurl, hemp]
    · constructor
      · intro _
        constructor <;> simp [deleteVideo, hurl, hemp]
      · intro h; exact absurd hemp h
  · have hne : (s.videos.eraseIdx i).isEmpty = false := by
      simpa [List.isEmpty_iff] using hemp
    constructor
    · simp [deleteVideo, hurl, hne, hsel, hfind, selectVideo]
    · constructor
      · intro h; exact absurd h hemp
      · intro _
        constructor <;> simp [deleteVideo, hurl, hne, hsel, hfind, selectVideo]

/-- Clip A used in the deleteVideo witnesses. -/
def vidA : VideoMetadata :=
  { name := "a.webm", size := "1.00 MB", type := "video/webm", duration := "0:10",
    url := "blob:a", trimStart := 1, trimEnd := 9, videoDuration := 10,
    width := 640, height := 480 }

/-- Clip B used in the deleteVideo witnesses. -/
def vidB : VideoMetadata :=
  { name := "b.webm", size := "2.00 MB", type := "video/webm", duration := "0:20",
    url := "blob:b", trimStart := 0, trimEnd := 20, videoDuration := 20,
    width := 640, height := 480 }

/-- Editor state with clips A and B loaded and A selected. -/
def sAB : EditorState :=
  { videos := [vidA, vidB], videoMetadata := some vidA, videoUrl := some vidA.url,
    videoDuration := 10, trimStart := 1, trimEnd := 9,
    exportProgress := none, trimStartTime := 0, trimDuration := "" }

/-- Witness for c4_delete_selected_cascade: deleting selected clip A at
index 0 of the two-clip library. -/
theorem c4_delete_selected_cascade_witness :
    (deleteVideo sAB 0).videos = sAB.videos.eraseIdx 0 ∧
    (sAB.videos.eraseIdx 0 = [] →
      (deleteVideo sAB 0).videoMetadata = none ∧ (deleteVideo sAB 0).videoUrl = none) ∧
    (sAB.videos.eraseIdx 0 ≠ [] →
      (deleteVideo sAB 0).videoMetadata
        = some ((sAB.videos.eraseIdx 0).getD (min 0 ((sAB.videos.eraseIdx 0).length - 1)) default) ∧
      (deleteVideo sAB 0).videoUrl
        = some ((sAB.videos.eraseIdx 0).getD (min 0 ((sAB.videos.eraseIdx 0).length - 1)) default).url) :=
  c4_delete_selected_cascade sAB 0 vidA (by decide) (by decide) rfl rfl rfl

/-- C8: deleting an entry other than the selected one leaves every piece
of selection state untouched: the whole editor state is unchanged except
that the entry is spliced out of the library. -/
theorem c8_delete_nonselected_preserves_selection (s : EditorState) (i j : ℕ)
    (m : VideoMetadata)
    (hi : i < s.videos.length)
    (hij : i ≠ j)
    (hsel : s.videoMetadata = some m)
    (hurl : s.videoUrl = some m.url)
    (hget : s.videos.get ⟨i, hi⟩ = m) :
    deleteVideo s j = { s with videos := s.videos.eraseIdx j } := by
  have hmem : m ∈ s.videos.eraseIdx j := hget ▸ get_mem_eraseIdx_of_ne s.videos i j hi hij
  have hne : (s.videos.eraseIdx j).isEmpty = false := by
    simpa [List.isEmpty_iff] using List.ne_nil_of_mem hmem
  have hfind : ((s.videos.eraseIdx j).find? fun v => v.url = m.url).isNone = false := by
    have : ((s.videos.eraseIdx j).find? fun v => v.url = m.url).isSome = true := by
      rw [List.find?_isSome]
      exact ⟨m, hmem, by simp⟩
    simp [Option.isNone_eq_false_iff, ← Option.isSome_iff_exists] at this ⊢
    simpa using this
  simp [deleteVideo, hurl, hne, hsel, hfind]

/-- Witness for c8_delete_nonselected_preserves_selection: deleting
non-selected clip B at index 1 while A is selected. -/
theorem c8_delete_nonselected_preserves_selection_witness :
    deleteVideo sAB 1 = { sAB with videos := sAB.videos.eraseIdx 1 } :=
  c8_delete_nonselected_preserves_selection sAB 0 1 vidA (by decide) (by decide) rfl rfl rfl

/-- Trim directives that exportVideo issues to the composition capability
for one clip: the offsetBy argument and the subclip bounds, in frames at
the 30-units-per-second reference rate. -/
structure ClipInstruction where
  url : String
  offset : ℤ
  subclipLo : ℤ
  subclipHi : ℤ
deriving Repr, DecidableEq, Inhabited

/-- Embedding of the per-clip trim block of exportVideo in
VideoEditor.vue: startFrame = floor(trimStart * 30), endFrame =
floor(trimEnd * 30), then offsetBy (-1 * startFrame) and
subclip 0 endFrame. -/
def clipInstruction (v : VideoMetadata) : ClipInstruction :=
  let startFrame : ℤ := ⌊v.trimStart * 30⌋
  let endFrame : ℤ := ⌊v.trimEnd * 30⌋
  { url := v.url, offset := -1 * startFrame, subclipLo := 0, subclipHi := endFrame }

/-- Modelled from the spec: the composition/encoding capability is
external (consumed as an opaque capability, spec sections 1 and 6), so its
frame semantics is taken from section 4.4 step 3: offsetBy shifts the
clip's internal timeline by the offset, subclip keeps source frames
[subclipLo, subclipHi), and the track clamps away the part shifted before
local time zero.  localStart is the first visible local frame. -/
def localStart (c : ClipInstruction) : ℤ := max 0 (c.subclipLo + c.offset)

/-- Modelled from the spec: number of output frames the clip contributes
after shifting and clamping (section 4.4 step 3). -/
def visLen (c : ClipInstruction) : ℤ := max 0 (c.subclipHi + c.offset - localStart c)

/-- Modelled from the spec: the source frame shown at local output frame k
of the clip, undoing the timeline shift (section 4.4 step 3). -/
def sourceAt (c : ClipInstruction) (k : ℤ) : ℤ := localStart c + k - c.offset

/-- Modelled from the spec: total output length of the sequential stacked
track, clips appended with no gaps and no overlap (section 4.4 step 3). -/
def trackLength : List ClipInstruction → ℤ
  | [] => 0
  | c :: cs => visLen c + trackLength cs

/-- Modelled from the spec: which clip and source frame the sequential
track shows at output frame t; later clips begin immediately after
earlier ones end (section 4.4 step 3). -/
def frameSource : List ClipInstruction → ℤ → Option (String × ℤ)
  | [], _ => none
  | c :: cs, t =>
    if 0 ≤ t ∧ t < visLen c then some (c.url, sourceAt c t)
    else frameSource cs (t - visLen c)

/-- Result of one exportVideo invocation: the reactive state after the
synchronous set-up phase, the trim directives sent to the composition,
the output dimensions taken from the first clip, and whether the encoder
and delivery capabilities were reached at all. -/
structure ExportOutcome where
  state : EditorState
  instructions : List ClipInstruction
  width : ℕ
  height : ℕ
  encoderInvoked : Bool
  deliveryInvoked : Bool
deriving Repr, DecidableEq

/-- Embedding of exportVideo of VideoEditor.vue up to the encoder
invocation: return unchanged immediately when the library is empty;
otherwise set exportProgress to 0, record the wall-clock start, clear the
elapsed display, size the composition from the first clip and emit one
trim directive per clip in library order.  The asynchronous encoder
progress stream and the save-picker fallback are external capabilities
and are recorded only as invocation flags. -/
def exportVideo (now : ℤ) (s : EditorState) : ExportOutcome :=
  if s.videos.isEmpty then
    { state := s, instructions := [], width := 0, height := 0,
      encoderInvoked := false, deliveryInvoked := false }
  else
    { state := { s with exportProgress := some 0, trimStartTime := now, trimDuration := "" },
      instructions := s.videos.map clipInstruction,
      width := (s.videos.headD default).width,
      height := (s.videos.headD default).height,
      encoderInvoked := true, deliveryInvoked := true }

/-- Clip A of the C3 scenario: trimmed to [2, 6]. -/
def expA : VideoMetadata :=
  { name := "A.webm", size := "1.00 MB", type := "video/webm", duration := "0:06",
    url := "blob:expA", trimStart := 2, trimEnd := 6, videoDuration := 6,
    width := 640, height := 480 }

/-- Clip B of the C3 scenario: trimmed to [0, 3]. -/
def expB : VideoMetadata :=
  { name := "B.webm", size := "1.00 MB", type := "video/webm", duration := "0:03",
    url := "blob:expB", trimStart := 0, trimEnd := 3, videoDuration := 3,
    width := 640, height := 480 }

/-- Editor state holding the C3 scenario clips A then B. -/
def sExp : EditorState :=
  { videos := [expA, expB], videoMetadata := some expA, videoUrl := some expA.url,
    videoDuration := 6, trimStart := 2, trimEnd := 6,
    exportProgress := none, trimStartTime := 0, trimDuration := "" }

/-- C3: export converts each trim bound to integer frame offsets
floor(time * 30), shifts the clip timeline backward by the start-frame
count and clamps to the subrange, so each clip contributes exactly output
frames [0, end - start) drawn from source frames [start, end); and in the
concrete two-clip scenario (A trimmed to [2,6], B to [0,3]) the track is
210 frames (7 s at the 30-unit rate) whose first 120 frames (4 s) come
solely from A's source frames [60, 180). -/
theorem c3_export_frame_accuracy :
    (∀ (now : ℤ) (s : EditorState), s.videos ≠ [] →
      (exportVideo now s).instructions = s.videos.map clipInstruction) ∧
    (∀ v : VideoMetadata,
      (clipInstruction v).offset = -1 * ⌊v.trimStart * 30⌋ ∧
      (clipInstruction v).subclipLo = 0 ∧
      (clipInstruction v).subclipHi = ⌊v.trimEnd * 30⌋) ∧
    (∀ v : VideoMetadata, 0 ≤ v.trimStart → v.trimStart ≤ v.trimEnd →
      visLen (clipInstruction v) = ⌊v.trimEnd * 30⌋ - ⌊v.trimStart * 30⌋ ∧
      ∀ k : ℤ, sourceAt (clipInstruction v) k = ⌊v.trimStart * 30⌋ + k) ∧
    ((exportVideo 0 sExp).instructions = [clipInstruction expA, clipInstruction expB] ∧
      trackLength [clipInstruction expA, clipInstruction expB] = 210 ∧
      ∀ t : ℤ, 0 ≤ t → t < 120 →
        frameSource [clipInstruction expA, clipInstruction expB] t
          = some (expA.url, 60 + t)) := by
  have hA : clipInstruction expA = { url := "blob:expA", offset := -60, subclipLo := 0, subclipHi := 180 } := by
    simp only [clipInstruction, expA]
    norm_num
  have hB : clipInstruction expB = { url := "blob:expB", offset := 0, subclipLo := 0, subclipHi := 90 } := by
    simp only [clipInstruction, expB]
    norm_num
  refine ⟨?_, ?_, ?_, ?_⟩
  · intro now s hne
    simp [exportVideo, List.isEmpty_iff, hne]
  · intro v; exact ⟨rfl, rfl, rfl⟩
  · intro v h0 hle
    have hfl0 : 0 ≤ ⌊v.trimStart * 30⌋ :=
      Int.floor_nonneg.mpr (mul_nonneg h0 (by norm_num))
    have hmono : ⌊v.trimStart * 30⌋ ≤ ⌊v.trimEnd * 30⌋ :=
      Int.floor_le_floor (mul_le_mul_of_nonneg_right hle (by norm_num))
    constructor
    · simp only [visLen, localStart, clipInstruction]
      omega
    · intro k
      simp only [sourceAt, localStart, clipInstruction]
      omega
  · refine ⟨?_, ?_, ?_⟩
    · simp [exportVideo, sExp]
    · rw [hA, hB]; simp [trackLength, visLen, localStart]
    · intro t ht0 ht
      rw [hA, hB]
      have hvis : visLen { url := "blob:expA", offset := -60, subclipLo := 0, subclipHi := 180 } = 120 := by
        simp [visLen, localStart]
      simp only [frameSource, hvis]
      rw [if_pos ⟨ht0, by omega⟩]
      simp [sourceAt, localStart, expA]
      omega

/-- Witness for c3_export_frame_accuracy: the per-clip clauses evaluated
on clip A of the scenario and the track mapping evaluated at output
frame 5. -/
theorem c3_export_frame_accuracy_witness :
    (exportVideo 0 sExp).instructions = sExp.videos.map clipInstruction ∧
    visLen (clipInstruction expA) = ⌊expA.trimEnd * 30⌋ - ⌊expA.trimStart * 30⌋ ∧
    frameSource [clipInstruction expA, clipInstruction expB] 5 = some (expA.url, 60 + 5) :=
  ⟨c3_export_frame_accuracy.1 0 sExp (by decide),
   (c3_export_frame_accuracy.2.2.1 expA (by decide) (by decide)).1,
   c3_export_frame_accuracy.2.2.2.2.2 5 (by decide) (by decide)⟩

/-- C7: exporting an empty library is a no-op: the state is returned
untouched (in particular exportProgress keeps its value, so a null
indicator stays null), no trim directives are produced, and neither the
encoder nor the delivery capability is invoked. -/
theorem c7_export_empty_noop (now : ℤ) (s : EditorState) (h : s.videos = []) :
    exportVideo now s
      = { state := s, instructions := [], width := 0, height := 0,
          encoderInvoked := false, deliveryInvoked := false } := by
  simp [exportVideo, h]

/-- Witness for c7_export_empty_noop on the empty initial editor state. -/
theorem c7_export_empty_noop_witness :
    exportVideo 0 default
      = { state := default, instructions := [], width := 0, height := 0,
          encoderInvoked := false, deliveryInvoked := false } :=
  c7_export_empty_noop 0 default rfl

/-- Media blob: byte size and MIME type are the only attributes the core
logic reads. -/
structure Blob where
  size : ℕ
  type : String
deriving Repr, DecidableEq, Inhabited

/-- Embedding of the videoMetadata record of VideoRecorder.vue. -/
structure RecMetadata where
  size : String
  type : String
  duration : String
deriving Repr, DecidableEq, Inhabited

/-- Embedding of the reactive state of VideoRecorder.vue: the capture
stream and MediaRecorder handles become presence flags, timers and locks
become flags, wall-clock times are integer milliseconds, and the
negotiated MIME type is the closure variable of startRecording. -/
structure RecorderState where
  stream : Bool
  mediaRecorder : Bool
  recordedChunks : List Blob
  isRecording : Bool
  recordedVideo : Option Blob
  videoMetadata : Option RecMetadata
  recordingStartTime : ℤ
  currentDuration : String
  maxDuration : ℚ
  durationInterval : Bool
  wakeLock : Bool
  recordingDurationInMs : ℤ
  negotiatedMimeType : String
deriving Repr, DecidableEq, Inhabited

/-- Payload of the recording-complete event of VideoRecorder.vue. -/
structure RecEvent where
  blob : Blob
  mimeType : String
deriving Repr, DecidableEq, Inhabited

/-- The fixed ordered codec preference list of getBestSupportedMimeType in
VideoRecorder.vue. -/
def codecTypes : List String :=
  ["video/webm;codecs=vp9,opus", "video/webm;codecs=vp8,opus", "video/webm",
   "video/mp4;codecs=h264,aac", "video/mp4"]

/-- Embedding of getBestSupportedMimeType of VideoRecorder.vue: the first
candidate the platform probe reports as supported, or the empty string
when none is. -/
def getBestSupportedMimeType (isSupported : String → Bool) : String :=
  (codecTypes.find? isSupported).getD ""

/-- Candidates actually probed by a first-match scan: every candidate up
to and including the first supported one, or the whole list when none is
supported. -/
def probeList (isSupported : String → Bool) : List String → List String
  | [] => []
  | t :: ts => if isSupported t then [t] else t :: probeList isSupported ts

/-- Left-pad a numeral string with zeros to two characters, as the JS
padStart call does. -/
def padStart2 (str : String) : String :=
  if str.length < 2 then String.mk (List.replicate (2 - str.length) '0') ++ str else str

/-- Minutes and seconds display shared by the duration helpers: JS
Math.floor for the minutes and the JS truncating remainder for the
seconds. -/
def formatClock (seconds : ℤ) : String :=
  toString (seconds.fdiv 60) ++ ":" ++ padStart2 (toString (seconds.tmod 60))

/-- Embedding of calculateDuration of VideoRecorder.vue. -/
def calculateDuration (now : ℤ) (s : RecorderState) : String :=
  if s.mediaRecorder = false then "0:00"
  else formatClock ((now - s.recordingStartTime).fdiv 1000)

/-- Embedding of startRecording of VideoRecorder.vue as one synchronous
step: return untouched when no capture stream is active; negotiate a
codec and return untouched when none is supported; otherwise reset the
chunk buffer, create the recorder, stamp the start time, request the
wake lock (granted or not is the platform's choice and non-fatal), start
the 1-second tick and mark recording active.  Besides the new state it
reports which codec candidates were probed and whether the wake-lock
capability was invoked. -/
def startRecording (isSupported : String → Bool) (now : ℤ) (wakeLockGranted : Bool)
    (s : RecorderState) : RecorderState × List String × Bool :=
  if s.stream = false then (s, [], false)
  else
    let mimeType := getBestSupportedMimeType isSupported
    if mimeType = "" then (s, probeList isSupported codecTypes, false)
    else
      ({ s with
          recordedChunks := [],
          mediaRecorder := true,
          negotiatedMimeType := mimeType,
          recordingStartTime := now,
          wakeLock := wakeLockGranted,
          durationInterval := true,
          isRecording := true },
       probeList isSupported codecTypes, true)

/-- Embedding of stopRecording of VideoRecorder.vue: when a recorder
exists and recording is active, stop it, cancel the tick timer, record
the measured wall-clock duration and release the wake lock; otherwise do
nothing.  The asynchronous onstop finalisation is modelled separately. -/
def stopRecording (now : ℤ) (s : RecorderState) : RecorderState :=
  if s.mediaRecorder && s.isRecording then
    { s with
        isRecording := false,
        durationInterval := false,
        recordingDurationInMs := now - s.recordingStartTime,
        wakeLock := false }
  else s

/-- Embedding of the durationInterval callback of startRecording in
VideoRecorder.vue: refresh the elapsed display, then, when a positive cap
is set and the elapsed whole seconds reach it, call stopRecording. -/
def durationTick (now : ℤ) (s : RecorderState) : RecorderState :=
  let s1 := { s with currentDuration := calculateDuration now s }
  if s1.maxDuration > 0 then
    let currentSeconds := (now - s1.recordingStartTime).fdiv 1000
    if (currentSeconds : ℚ) ≥ s1.maxDuration then stopRecording now s1 else s1
  else s1

/-- Concatenation of the buffered chunks into one media object tagged
with the negotiated MIME type, as the new Blob call of the onstop handler
does. -/
def assembleBlob (s : RecorderState) : Blob :=
  { size := (s.recordedChunks.map Blob.size).sum, type := s.negotiatedMimeType }

/-- Megabyte display of the onstop handler, size/(1024*1024) with two
fixed decimals; modelled by exact rounding-half-up on hundredths rather
than binary floating point, which agrees except for float artifacts that
no claim depends on. -/
def formatMB (size : ℕ) : String :=
  let hundredths := (size * 200 + 1048576) / 2097152
  toString (hundredths / 100) ++ "." ++ padStart2 (toString (hundredths % 100)) ++ " MB"

/-- Embedding of JS String.prototype.startsWith, written over character
lists so that it evaluates by kernel reduction. -/
def strStartsWith (str pre : String) : Bool :=
  pre.data.isPrefixOf str.data

/-- Embedding of the mediaRecorder.onstop handler of VideoRecorder.vue:
assemble the chunks, run the webm duration-correction pass when the
negotiated container is webm (fixWebmDuration is an external fallible
capability), store the result and its metadata, and emit the
recording-complete event.  The source wraps none of this in a catch, so a
correction failure propagates as the error branch and no event is
produced. -/
def onstop (fix : Blob → ℤ → Except String Blob) (now : ℤ) (s : RecorderState) :
    Except String (RecorderState × RecEvent) := do
  let assembled := assembleBlob s
  let blob ← if strStartsWith s.negotiatedMimeType "video/webm"
    then fix assembled s.recordingDurationInMs
    else pure assembled
  let s' := { s with
    recordedVideo := some blob,
    videoMetadata := some
      { size := formatMB blob.size, type := blob.type,
        duration := calculateDuration now s } }
  pure (s', { blob := blob, mimeType := s.negotiatedMimeType })

/-- A first-match scan returns the element at the first index satisfying
the predicate. -/
theorem find?_of_first {α : Type} (p : α → Bool) :
    ∀ (l : List α) (i : ℕ) (hi : i < l.length), p (l.get ⟨i, hi⟩) = true →
      (∀ j (hj : j < l.length), j < i → p (l.get ⟨j, hj⟩) = false) →
      l.find? p = some (l.get ⟨i, hi⟩)
  | [], i, hi, _, _ => absurd hi (by simp)
  | a :: t, 0, _, hp, _ => by
    simpa using List.find?_cons_of_pos t hp
  | a :: t, i + 1, hi, hp, hfirst => by
    have ha : p a = false := hfirst 0 (by simp) (Nat.succ_pos i)
    have hi' : i < t.length := Nat.lt_of_succ_lt_succ hi
    rw [List.find?_cons_of_neg t (by simp [ha])]
    exact find?_of_first p t i hi' hp fun j hj hlt =>
      hfirst (j + 1) (Nat.succ_lt_succ hj) (Nat.succ_lt_succ hlt)

/-- C5: codec negotiation scans exactly the fixed ordered preference list
webm/vp9+opus, webm/vp8+opus, webm, mp4/h264+aac, mp4 and returns the
first candidate the platform reports as supported; with an empty
supported set it returns the empty string, startRecording with an active
stream then returns without starting, and the whole recording state
(isRecording, chunk buffer, timer, recorder, wake lock) is left
untouched. -/
theorem c5_codec_negotiation :
    codecTypes = ["video/webm;codecs=vp9,opus", "video/webm;codecs=vp8,opus",
      "video/webm", "video/mp4;codecs=h264,aac", "video/mp4"] ∧
    (∀ (isSupported : String → Bool) (i : ℕ) (hi : i < codecTypes.length),
      isSupported (codecTypes.get ⟨i, hi⟩) = true →
      (∀ j (hj : j < codecTypes.length), j < i → isSupported (codecTypes.get ⟨j, hj⟩) = false) →
      getBestSupportedMimeType isSupported = codecTypes.get ⟨i, hi⟩) ∧
    (∀ isSupported : String → Bool, (∀ t ∈ codecTypes, isSupported t = false) →
      getBestSupportedMimeType isSupported = "" ∧
      ∀ (now : ℤ) (wl : Bool) (s : RecorderState), s.stream = true →
        startRecording isSupported now wl s = (s, probeList isSupported codecTypes, false)) := by
  refine ⟨rfl, ?_, ?_⟩
  · intro isSupported i hi hp hfirst
    simp [getBestSupportedMimeType, find?_of_first isSupported codecTypes i hi hp hfirst]
  · intro isSupported hnone
    have hfind : codecTypes.find? isSupported = none := by
      rw [List.find?_eq_none]
      intro t ht
      simp [hnone t ht]
    have hbest : getBestSupportedMimeType isSupported = "" := by
      simp [getBestSupportedMimeType, hfind]
    exact ⟨hbest, fun now wl s hs => by simp [startRecording, hs, hbest]⟩

/-- Witness for c5_codec_negotiation: the everywhere-unsupported probe on
a camera-active recorder state. -/
theorem c5_codec_negotiation_witness :
    getBestSupportedMimeType (fun _ => false) = "" ∧
    startRecording (fun _ => false) 0 true { (default : RecorderState) with stream := true }
      = ({ (default : RecorderState) with stream := true },
         probeList (fun _ => false) codecTypes, false) := by
  have h := c5_codec_negotiation.2.2 (fun _ => false) (fun t _ => rfl)
  exact ⟨h.1, h.2 0 true { (default : RecorderState) with stream := true } rfl⟩

/-- C10: startRecording without an active capture stream is a no-op: the
state is returned unchanged (isRecording stays false, the chunk buffer is
not reset, no recorder, timer or wake-lock request is created) and not a
single codec candidate is probed. -/
theorem c10_startRecording_no_stream (isSupported : String → Bool) (now : ℤ)
    (wl : Bool) (s : RecorderState) (h : s.stream = false) :
    startRecording isSupported now wl s = (s, [], false) := by
  simp [startRecording, h]

/-- Witness for c10_startRecording_no_stream on the initial recorder
state, whose stream is absent. -/
theorem c10_startRecording_no_stream_witness :
    startRecording (fun _ => true) 0 true default = (default, [], false) :=
  c10_startRecording_no_stream (fun _ => true) 0 true default rfl

/-- Camera-active recorder state awaiting a recording start, with the
duration cap set to 5 seconds. -/
def recReady : RecorderState :=
  { (default : RecorderState) with stream := true, maxDuration := 5 }

/-- Recording started at time 0 on recReady under a platform supporting
every codec, then driven only by the 1-second tick at 1000..5000 ms: a
purely autonomous run with no external stopRecording call. -/
def c6Run : RecorderState :=
  [1000, 2000, 3000, 4000, 5000].foldl (fun st t => durationTick t st)
    (startRecording (fun _ => true) 0 true recReady).1

/-- The same run cut off before the cap is reached. -/
def c6RunBefore : RecorderState :=
  [1000, 2000, 3000, 4000].foldl (fun st t => durationTick t st)
    (startRecording (fun _ => true) 0 true recReady).1

/-- C6: each tick compares the elapsed wall-clock whole seconds against
the cap when one is set; at or past the cap the tick IS an invocation of
stopRecording (the same path as an explicit stop), which ends the
recording and cancels the timer, while below the cap (or with no cap) the
tick only refreshes the display; concretely, with maxDuration = 5 a
recording started at 0 and ticked each second is still recording after
the 4000 ms tick and has autonomously stopped after the 5000 ms tick. -/
theorem c6_duration_cap_autostop :
    (∀ (now : ℤ) (s : RecorderState), s.maxDuration > 0 →
      (((now - s.recordingStartTime).fdiv 1000 : ℤ) : ℚ) ≥ s.maxDuration →
      durationTick now s
        = stopRecording now { s with currentDuration := calculateDuration now s }) ∧
    (∀ (now : ℤ) (s : RecorderState), s.maxDuration > 0 →
      (((now - s.recordingStartTime).fdiv 1000 : ℤ) : ℚ) ≥ s.maxDuration →
      s.mediaRecorder = true → s.isRecording = true →
      (durationTick now s).isRecording = false ∧
      (durationTick now s).durationInterval = false) ∧
    (∀ (now : ℤ) (s : RecorderState),
      ¬ (((now - s.recordingStartTime).fdiv 1000 : ℤ) : ℚ) ≥ s.maxDuration →
      durationTick now s = { s with currentDuration := calculateDuration now s }) ∧
    ((startRecording (fun _ => true) 0 true recReady).1.isRecording = true ∧
      c6RunBefore.isRecording = true ∧
      c6Run.isRecording = false ∧ c6Run.durationInterval = false) := by
  have hmain : ∀ (now : ℤ) (s : RecorderState), s.maxDuration > 0 →
      (((now - s.recordingStartTime).fdiv 1000 : ℤ) : ℚ) ≥ s.maxDuration →
      durationTick now s
        = stopRecording now { s with currentDuration := calculateDuration now s } := by
    intro now s hmax hge
    simp only [durationTick]
    rw [if_pos hmax, if_pos hge]
  refine ⟨hmain, ?_, ?_, ?_⟩
  · intro now s hmax hge hmr hir
    rw [hmain now s hmax hge]
    simp [stopRecording, hmr, hir]
  · intro now s hlt
    simp only [durationTick]
    by_cases hmax : s.maxDuration > 0
    · rw [if_pos hmax, if_neg hlt]
    · rw [if_neg hmax]
  · refine ⟨by decide, by decide, by decide, by decide⟩

/-- Witness for c6_duration_cap_autostop: the cap-reached clauses applied
at the 5000 ms tick of the concrete capped recording. -/
theorem c6_duration_cap_autostop_witness :
    durationTick 5000 c6RunBefore
      = stopRecording 5000 { c6RunBefore with currentDuration := calculateDuration 5000 c6RunBefore } ∧
    (durationTick 5000 c6RunBefore).isRecording = false :=
  ⟨c6_duration_cap_autostop.1 5000 c6RunBefore (by decide) (by decide),
   (c6_duration_cap_autostop.2.1 5000 c6RunBefore (by decide) (by decide)
      (by decide) (by decide)).1⟩

/-- Recorder state just after stopping a 5-second webm recording, as seen
by the onstop handler. -/
def c2State : RecorderState :=
  { stream := true, mediaRecorder := true,
    recordedChunks := [{ size := 1000000, type := "video/webm;codecs=vp9,opus" }],
    isRecording := false, recordedVideo := none, videoMetadata := none,
    recordingStartTime := 0, currentDuration := "0:05", maxDuration := 0,
    durationInterval := false, wakeLock := false, recordingDurationInMs := 5000,
    negotiatedMimeType := "video/webm;codecs=vp9,opus" }

/-- A duration-correction pass that fails with an exception. -/
def failingFix : Blob → ℤ → Except String Blob :=
  fun _ _ => Except.error "fixWebmDuration failed"

/-- C2 counterexample: on a webm recording whose duration-correction pass
throws, the onstop handler has no catch, so the failure propagates: the
handler produces no recording-complete event at all, instead of emitting
the uncorrected media object as claimed. -/
theorem c2_correction_failure_drops_event :
    strStartsWith c2State.negotiatedMimeType "video/webm" = true ∧
    onstop failingFix 5000 c2State = Except.error "fixWebmDuration failed" ∧
    (onstop failingFix 5000 c2State).toOption = none :=
  ⟨rfl, rfl, rfl⟩

/-- C2 amended: a duration-correction failure is not caught: the stop
handler rejects with the correction's error, emitting no event and
storing no recordedVideo (the raw chunks stay buffered in the state but
are not delivered); the recording-complete event is emitted exactly when
the correction succeeds (carrying the corrected object) or the container
is not webm and the pass is skipped (carrying the plain concatenation). -/
theorem c2_correction_failure_uncaught :
    (∀ (fix : Blob → ℤ → Except String Blob) (now : ℤ) (s : RecorderState) (e : String),
      strStartsWith s.negotiatedMimeType "video/webm" = true →
      fix (assembleBlob s) s.recordingDurationInMs = Except.error e →
      onstop fix now s = Except.error e) ∧
    (∀ (fix : Blob → ℤ → Except String Blob) (now : ℤ) (s : RecorderState) (b : Blob),
      strStartsWith s.negotiatedMimeType "video/webm" = true →
      fix (assembleBlob s) s.recordingDurationInMs = Except.ok b →
      onstop fix now s = Except.ok
        ({ s with recordedVideo := some b,
                  videoMetadata := some
                    { size := formatMB b.size, type := b.type,
                      duration := calculateDuration now s } },
         { blob := b, mimeType := s.negotiatedMimeType })) ∧
    (∀ (fix : Blob → ℤ → Except String Blob) (now : ℤ) (s : RecorderState),
      strStartsWith s.negotiatedMimeType "video/webm" = false →
      onstop fix now s = Except.ok
        ({ s with recordedVideo := some (assembleBlob s),
                  videoMetadata := some
                    { size := formatMB (assembleBlob s).size, type := (assembleBlob s).type,
                      duration := calculateDuration now s } },
         { blob := assembleBlob s, mimeType := s.negotiatedMimeType })) := by
  refine ⟨?_, ?_, ?_⟩
  · intro fix now s e hw hfix
    simp [onstop, hw, hfix, Except.bind]
  · intro fix now s b hw hfix
    simp [onstop, hw, hfix, Except.bind]
  · intro fix now s hw
    simp only [onstop, hw, Bool.false_eq_true, if_false, Except.bind]
    rfl

/-- Witness for c2_correction_failure_uncaught: the error clause applied
to the failing correction on the concrete webm recording. -/
theorem c2_correction_failure_uncaught_witness :
    onstop failingFix 5000 c2State = Except.error "fixWebmDuration failed" :=
  c2_correction_failure_uncaught.1 failingFix 5000 c2State
    "fixWebmDuration failed" rfl rfl

/-- Signals the hidden playback element can deliver to loadVideoFromBlob
of VideoEditor.vue after the forced out-of-range seek: the seek-settled
signal (onseeked) and the failure signal (onerror).  The single-threaded
event loop delivers them in some arbitrary order, possibly repeatedly. -/
inductive LoadEvent
  | seeked
  | error
deriving Repr, DecidableEq

/-- Per-extraction state of loadVideoFromBlob: the one-shot
metadataLoaded flag, whether the onseeked handler is still attached, the
surrounding editor state the handler body mutates, whether the object URL
was revoked by the error path, and the promise, which settles at most
once (a JS promise ignores later resolve calls, modelled by
resolveOnce). -/
structure LoadState where
  metadataLoaded : Bool
  onseekedAttached : Bool
  editor : EditorState
  promise : Option Bool
  urlRevoked : Bool
deriving Repr, DecidableEq

/-- First resolve call wins, as for a JS promise. -/
def resolveOnce (p : Option Bool) (b : Bool) : Option Bool :=
  match p with
  | none => some b
  | some x => some x

/-- State at the start of one extraction: flag down, handler attached,
promise pending. -/
def loadInit (ed : EditorState) : LoadState :=
  { metadataLoaded := false, onseekedAttached := true, editor := ed,
    promise := none, urlRevoked := false }

/-- Body of the onseeked handler of loadVideoFromBlob once it passes the
guard: build the metadata record (meta stands for the values read off the
element), push it to the videos array, select it, mirror its trim range
into the slider state, raise the one-shot flag and resolve the promise
with true. -/
def seekedBody (meta : VideoMetadata) (st : LoadState) : LoadState :=
  { st with
    editor := { st.editor with
      videos := st.editor.videos ++ [meta],
      videoMetadata := some meta,
      videoUrl := some meta.url,
      videoDuration := meta.videoDuration,
      trimStart := meta.trimStart,
      trimEnd := meta.trimEnd },
    metadataLoaded := true,
    promise := resolveOnce st.promise true }

/-- One event delivery of loadVideoFromBlob: a seeked signal runs the
body unless the metadataLoaded guard is already up, in which case it only
detaches the handler; an error signal revokes the URL and resolves the
promise with false. -/
def loadStep (meta : VideoMetadata) (st : LoadState) : LoadEvent → LoadState
  | .seeked =>
    if st.metadataLoaded then { st with onseekedAttached := false }
    else seekedBody meta st
  | .error =>
    { st with promise := resolveOnce st.promise false, urlRevoked := true }

/-- Key invariant for C9: once the one-shot flag is up the promise has
already settled. -/
def LoadInv (st : LoadState) : Prop :=
  st.metadataLoaded = true → st.promise.isSome = true

/-- Processing any event sequence from an invariant state appends exactly
one entry when the state could still append and a seeked signal occurs,
and settles the promise exactly when something fired. -/
theorem loadRun_spec (meta : VideoMetadata) :
    ∀ (evs : List LoadEvent) (st : LoadState), LoadInv st →
      (evs.foldl (loadStep meta) st).editor.videos.length
        = st.editor.videos.length
          + (if st.metadataLoaded = false ∧ LoadEvent.seeked ∈ evs then 1 else 0) ∧
      (evs.foldl (loadStep meta) st).promise.isSome
        = (st.promise.isSome || !evs.isEmpty)
  | [], st, _ => by simp
  | .seeked :: evs, st, hinv => by
    by_cases hflag : st.metadataLoaded
    · have hsome : st.promise.isSome = true := hinv hflag
      have ih := loadRun_spec meta evs { st with onseekedAttached := false }
        (fun h => hinv h)
      simp only [List.foldl_cons, loadStep, hflag, if_true] at ih ⊢
      rcases ih with ⟨ih1, ih2⟩
      refine ⟨?_, ?_⟩
      · rw [ih1]; simp [hflag]
      · rw [ih2]; simp [hsome]
    · have hf : st.metadataLoaded = false := by
        revert hflag; cases st.metadataLoaded <;> simp
      have hstep : loadStep meta st .seeked = seekedBody meta st := by
        simp [loadStep, hf]
      have hinv' : LoadInv (seekedBody meta st) := by
        intro _; simp [seekedBody, resolveOnce]
        cases st.promise <;> simp
      have ih := loadRun_spec meta evs (seekedBody meta st) hinv'
      rcases ih with ⟨ih1, ih2⟩
      rw [List.foldl_cons, hstep]
      refine ⟨?_, ?_⟩
      · rw [ih1]
        simp [seekedBody, hf]
      · rw [ih2]
        have hps : (seekedBody meta st).promise.isSome = true := by
          simp [seekedBody, resolveOnce]; cases st.promise <;> simp
        simp [hps]
  | .error :: evs, st, hinv => by
    have hsome : (loadStep meta st .error).promise.isSome = true := by
      simp [loadStep, resolveOnce]; cases st.promise <;> simp
    have hinv' : LoadInv (loadStep meta st .error) := fun _ => hsome
    have ih := loadRun_spec meta evs (loadStep meta st .error) hinv'
    rcases ih with ⟨ih1, ih2⟩
    refine ⟨?_, ?_⟩
    · rw [List.foldl_cons, ih1]
      simp [loadStep]
    · rw [List.foldl_cons, ih2]
      simp [hsome]

/-- C9: over every possible delivery sequence of settle and error
signals, the one-shot guard lets the seek-settled body run at most once:
starting a fresh extraction, exactly one clip is appended when at least
one settle signal fires and none otherwise (so never more than one), and
the promise is settled exactly once as soon as any signal fires, the
settle-once discipline being built into resolveOnce. -/
theorem c9_one_shot_guard (meta : VideoMetadata) (ed : EditorState)
    (evs : List LoadEvent) :
    (evs.foldl (loadStep meta) (loadInit ed)).editor.videos.length
      = ed.videos.length + (if LoadEvent.seeked ∈ evs then 1 else 0) ∧
    (evs.foldl (loadStep meta) (loadInit ed)).editor.videos.length
      ≤ ed.videos.length + 1 ∧
    (evs.foldl (loadStep meta) (loadInit ed)).promise.isSome = !evs.isEmpty := by
  have h := loadRun_spec meta evs (loadInit ed) (by intro h; simp [loadInit] at h)
  rcases h with ⟨h1, h2⟩
  refine ⟨?_, ?_, ?_⟩
  · rw [h1]; simp [loadInit]
  · rw [h1]; simp only [loadInit]
    split <;> omega
  · rw [h2]; simp [loadInit]

end VidApp
